import Mathlib

/-!
Shallow embedding of the resource-handle layer of `src/src/resources.rs`
(the deno resource table): the lock-based global resource table with its
atomic id allocator, the actor-based resource manager (`ResourceTable2`
plus the worker-loop/channel discipline), per-variant capability dispatch
for `poll_read` / `poll_write` / `poll_accept` / `shutdown`, the
higher-level named operations `child_status` and `readline`, child-process
registration (`add_child`), and the introspection snapshot
(`table_entries`).

Panics (`panic!`, `expect`, `assert!`, the `unimplemented!` macro) are
modelled with an explicit `Outcome` type; machine integers (`u32` rids,
the `usize` atomic counter) are modelled as `Nat` with explicit `% 2 ^ 32`
/ `% 2 ^ 64` exactly where the Rust code truncates or wraps. External OS
primitives (tokio files, sockets, pipes, the repl) are abstracted as the
response they would currently give to a poll; the dispatch logic around
them is translated verbatim.
-/

deriving instance DecidableEq for Except

namespace Deno

/-- `u32::MAX + 1`: the size of the 32-bit resource-id space. -/
def U32LIM : Nat := 2 ^ 32

/-- `usize::MAX + 1` on a 64-bit target: the atomic counter `NEXT_RID`
wraps at this bound on `fetch_add`. -/
def USIZELIM : Nat := 2 ^ 64

/-- `pub type ResourceId = u32`. Modelled as `Nat`; truncation to 32 bits
is written explicitly where the source casts (`as ResourceId`). -/
abbrev ResourceId := Nat

/-- Result of a Rust `panic!`-able computation: either a normal value or a
panic with the panic message. -/
inductive Outcome (α : Type) where
  | ok : α → Outcome α
  | panic : String → Outcome α
deriving DecidableEq

/-- Whether an `Outcome` is a panic. -/
def Outcome.isPanic {α : Type} : Outcome α → Bool
  | .ok _ => false
  | .panic _ => true

/-- Sequencing of panic-able computations (panics propagate). -/
def Outcome.bind {α β : Type} : Outcome α → (α → Outcome β) → Outcome β
  | .ok a, f => f a
  | .panic m, _ => .panic m

/-- `futures::Async` readiness: `Ready(v)` or `NotReady`. -/
inductive Async (α : Type) where
  | notReady : Async α
  | ready : α → Async α
deriving DecidableEq

/-- Rust `Poll<T, io::Error>` = `Result<Async<T>, io::Error>`; OS error
codes are modelled as `Nat`. -/
abbrev IoPoll (α : Type) := Except Nat (Async α)

/-- `DenoError` (from the repository's `errors` module, which is not under
`src/`). Modelled from the spec: a typed error that is either the
recoverable "bad resource" error for a resource id, or a wrapped
underlying OS error. -/
inductive DenoErr where
  | badResource (rid : ResourceId)
  | ioErr (code : Nat)
deriving DecidableEq

/-- `errors::bad_resource(rid)`. Modelled from the spec: constructs the
recoverable typed "bad resource" error for `rid` (the `errors` module is
not under `src/`). -/
def bad_resource (rid : ResourceId) : DenoErr := .badResource rid

/-- Model of a `tokio_process::Child`: the optional captured pipes (each
abstracted as the poll response of the pipe primitive) and the child's
exit-status poll response. `stdin()/stdout()/stderr()` return these
options; `take()` empties them. -/
structure ChildModel where
  stdinPipe : Option (IoPoll Nat)
  stdoutPipe : Option (IoPoll Nat)
  stderrPipe : Option (IoPoll Nat)
  status : IoPoll Nat
deriving DecidableEq

/-- `enum Repr`: the closed set of table-owned payloads. Each external OS
primitive is abstracted as the response(s) it would currently give to the
polls the dispatch code can issue on it. -/
inductive Repr where
  | Stdin (pollRead : IoPoll Nat)
  | Stdout (pollWrite : IoPoll Nat)
  | Stderr (pollWrite : IoPoll Nat)
  | FsFile (pollRead : IoPoll Nat) (pollWrite : IoPoll Nat)
  | TcpListener (pollAccept : IoPoll (Nat × Nat))
  | TcpStream (pollRead : IoPoll Nat) (pollWrite : IoPoll Nat)
      (shutdownRes : Except Nat Unit)
  | HttpBody (pollRead : IoPoll Nat)
  | Repl (readlineRes : Except DenoErr String)
  | Child (c : ChildModel)
  | ChildStdin (pollWrite : IoPoll Nat)
  | ChildStdout (pollRead : IoPoll Nat)
  | ChildStderr (pollRead : IoPoll Nat)
deriving DecidableEq

/-- The variant tag of a `Repr`, for stating which variants support which
operation. -/
inductive ReprKind where
  | stdin | stdout | stderr | fsFile | tcpListener | tcpStream
  | httpBody | repl | child | childStdin | childStdout | childStderr
deriving DecidableEq

/-- Tag of a `Repr` value. -/
def Repr.kind : Repr → ReprKind
  | .Stdin _ => .stdin
  | .Stdout _ => .stdout
  | .Stderr _ => .stderr
  | .FsFile _ _ => .fsFile
  | .TcpListener _ => .tcpListener
  | .TcpStream _ _ _ => .tcpStream
  | .HttpBody _ => .httpBody
  | .Repl _ => .repl
  | .Child _ => .child
  | .ChildStdin _ => .childStdin
  | .ChildStdout _ => .childStdout
  | .ChildStderr _ => .childStderr

/-- `fn inspect_repr(repr: &Repr) -> String`: the fixed kind label of each
variant. -/
def inspect_repr : Repr → String
  | .Stdin _ => "stdin"
  | .Stdout _ => "stdout"
  | .Stderr _ => "stderr"
  | .FsFile _ _ => "fsFile"
  | .TcpListener _ => "tcpListener"
  | .TcpStream _ _ _ => "tcpStream"
  | .HttpBody _ => "httpBody"
  | .Repl _ => "repl"
  | .Child _ => "child"
  | .ChildStdin _ => "childStdin"
  | .ChildStdout _ => "childStdout"
  | .ChildStderr _ => "childStderr"

/-- The `HashMap<ResourceId, Repr>` inside either table, modelled as an
association list with at most one entry per key. -/
abbrev ReprMap := List (ResourceId × Repr)

/-- `HashMap::get` / `get_mut`: the value stored at `k`, if any. -/
def mapLookup : ReprMap → ResourceId → Option Repr
  | [], _ => none
  | (k2, v) :: rest, k => if k2 = k then some v else mapLookup rest k

/-- `HashMap::insert`: stores `v` at `k`, returning the previous value at
`k` (if any) together with the updated map. -/
def mapInsert : ReprMap → ResourceId → Repr → Option Repr × ReprMap
  | [], k, v => (none, [(k, v)])
  | (k2, v2) :: rest, k, v =>
    if k2 = k then (some v2, (k, v) :: rest)
    else
      let (old, m2) := mapInsert rest k v
      (old, (k2, v2) :: m2)

/-- `HashMap::remove`: removes the entry at `k`, returning the removed
value (if any) together with the updated map. -/
def mapRemove : ReprMap → ResourceId → Option Repr × ReprMap
  | [], _ => (none, [])
  | (k2, v2) :: rest, k =>
    if k2 = k then (some v2, rest)
    else
      let (old, m2) := mapRemove rest k
      (old, (k2, v2) :: m2)

/-- All keys of the map are `< b`. -/
def allKeysLt (m : ReprMap) (b : Nat) : Bool :=
  m.all fun kv => kv.1 < b

/-- State of the lock-based store: the `NEXT_RID` atomic counter (a
`usize`) and the `RESOURCE_TABLE` map. -/
structure GlobalState where
  nextRid : Nat
  table : ReprMap
deriving DecidableEq

/-- `pub struct Resource { pub rid: ResourceId }`: an opaque handle
carrying only the id. -/
structure Resource where
  rid : ResourceId
deriving DecidableEq

/-- `fn new_rid() -> ResourceId`: `NEXT_RID.fetch_add(1, SeqCst)` returns
the old `usize` value (wrapping at `usize::MAX`), which is then cast
`as ResourceId`, truncating to 32 bits. There is no overflow check. -/
def new_rid (s : GlobalState) : ResourceId × GlobalState :=
  let next_rid := s.nextRid
  (next_rid % U32LIM, { s with nextRid := (next_rid + 1) % USIZELIM })

/-- `ResourceTable::run_with(rid, f)`: looks up the `Repr` for `rid` under
the lock and runs `f` on it; panics `"bad rid"` when `rid` is absent. The
closure itself may panic, hence `f : Repr → Outcome α`. -/
def run_with {α : Type} (s : GlobalState) (rid : ResourceId)
    (f : Repr → Outcome α) : Outcome α :=
  match mapLookup s.table rid with
  | none => .panic ("bad rid " ++ toString rid)
  | some repr => f repr

/-- `ResourceTable::insert(repr)`: allocates an id with `new_rid`, inserts,
and panics if the id was already present. -/
def tableInsert (s : GlobalState) (repr : Repr) :
    Outcome (Resource × GlobalState) :=
  let (rid, s1) := new_rid s
  let (old, m2) := mapInsert s1.table rid repr
  match old with
  | some _ => .panic "There is already a file with that rid"
  | none => .ok ({ rid }, { s1 with table := m2 })

/-- The seed map `{0 ↦ Stdin, 1 ↦ Stdout, 2 ↦ Stderr}` both stores are
built from (the three stdio primitives abstracted as their current poll
responses). -/
def seedTable (pin pout perr : IoPoll Nat) : ReprMap :=
  [(0, Repr.Stdin pin), (1, Repr.Stdout pout), (2, Repr.Stderr perr)]

/-- The `lazy_static!` initial state of the lock-based store: `NEXT_RID`
starts at 3 (stdio is 0-2) and `RESOURCE_TABLE` holds the three stdio
entries. -/
def freshGlobal (pin pout perr : IoPoll Nat) : GlobalState :=
  { nextRid := 3, table := seedTable pin pout perr }

/-- `pub fn table_entries() -> Vec<(u32, String)>`: every live id paired
with its variant label. -/
def table_entries (s : GlobalState) : List (ResourceId × String) :=
  s.table.map fun kv => (kv.1, inspect_repr kv.2)

/-- `Resource::close(self)`: removes the id from the table and asserts the
entry existed (`assert!(r.is_some())`). -/
def Resource.close (s : GlobalState) (r : Resource) : Outcome GlobalState :=
  let (old, m2) := mapRemove s.table r.rid
  if old.isSome then .ok { s with table := m2 }
  else .panic "assertion failed: r.is_some()"

/-- Shutdown mode argument of `Resource::shutdown` (`std::net::Shutdown`). -/
inductive ShutdownMode where
  | read | write | both
deriving DecidableEq

/-- The match inside `AsyncRead for Resource::poll_read`: capable variants
delegate to the primitive's poll, every other variant panics
`"Cannot read"`. -/
def readDispatch : Repr → Outcome (IoPoll Nat)
  | .FsFile f _ => .ok f
  | .Stdin f => .ok f
  | .TcpStream f _ _ => .ok f
  | .HttpBody f => .ok f
  | .ChildStdout f => .ok f
  | .ChildStderr f => .ok f
  | _ => .panic "Cannot read"

/-- The match inside `AsyncWrite for Resource::poll_write`: capable
variants delegate, every other variant panics `"Cannot write"`. -/
def writeDispatch : Repr → Outcome (IoPoll Nat)
  | .FsFile _ f => .ok f
  | .Stdout f => .ok f
  | .Stderr f => .ok f
  | .TcpStream _ f _ => .ok f
  | .ChildStdin f => .ok f
  | _ => .panic "Cannot write"

/-- The match inside `Resource::poll_accept`: only `TcpListener`
delegates, every other variant panics `"Cannot accept"`. -/
def acceptDispatch : Repr → Outcome (IoPoll (Nat × Nat))
  | .TcpListener f => .ok f
  | _ => .panic "Cannot accept"

/-- The match inside `Resource::shutdown`: only `TcpStream` delegates
(mapping the OS error into `DenoError`), every other variant panics
`"Cannot shutdown"`. The `how` argument is forwarded to the OS primitive,
whose response is abstracted in the payload. -/
def shutdownDispatch (how : ShutdownMode) : Repr → Outcome (Except DenoErr Unit)
  | .TcpStream _ _ res =>
    .ok (match how, res with
         | _, .ok u => .ok u
         | _, .error e => .error (.ioErr e))
  | _ => .panic "Cannot shutdown"

/-- `AsyncRead for Resource::poll_read`: dispatch through
`ResourceTable::run_with`. The byte buffer is forwarded to the OS
primitive, whose response is abstracted in the payload. -/
def Resource.poll_read (s : GlobalState) (r : Resource) (buf : List Nat) :
    Outcome (IoPoll Nat) :=
  let _ := buf
  run_with s r.rid readDispatch

/-- `AsyncWrite for Resource::poll_write`: dispatch through
`ResourceTable::run_with`. -/
def Resource.poll_write (s : GlobalState) (r : Resource) (buf : List Nat) :
    Outcome (IoPoll Nat) :=
  let _ := buf
  run_with s r.rid writeDispatch

/-- `Resource::poll_accept`: dispatch through `ResourceTable::run_with`. -/
def Resource.poll_accept (s : GlobalState) (r : Resource) :
    Outcome (IoPoll (Nat × Nat)) :=
  run_with s r.rid acceptDispatch

/-- `Resource::shutdown(how)`: dispatch through `ResourceTable::run_with`. -/
def Resource.shutdown (s : GlobalState) (r : Resource) (how : ShutdownMode) :
    Outcome (Except DenoErr Unit) :=
  run_with s r.rid (shutdownDispatch how)

/-- `Read for Resource::read`: `unimplemented!()`. -/
def Resource.read (r : Resource) (buf : List Nat) : Outcome Nat :=
  let _ := r
  let _ := buf
  .panic "not implemented"

/-- `Write for Resource::write`: `unimplemented!()`. -/
def Resource.write (r : Resource) (buf : List Nat) : Outcome Nat :=
  let _ := r
  let _ := buf
  .panic "not implemented"

/-- `Write for Resource::flush`: `unimplemented!()`. -/
def Resource.flush (r : Resource) : Outcome Unit :=
  let _ := r
  .panic "not implemented"

/-- `AsyncWrite for Resource::shutdown` (the no-argument trait method):
`unimplemented!()`. -/
def Resource.async_shutdown (r : Resource) : Outcome (IoPoll Unit) :=
  let _ := r
  .panic "not implemented"

/-- `pub struct ChildStatus { rid: ResourceId }`. -/
structure ChildStatus where
  rid : ResourceId
deriving DecidableEq

/-- `pub fn child_status(rid) -> DenoResult<ChildStatus>`: `run_with` on
`rid`; a `Child` variant yields `Ok`, any other variant yields the
recoverable `bad_resource` error. An absent id panics inside `run_with`. -/
def child_status (s : GlobalState) (rid : ResourceId) :
    Outcome (Except DenoErr ChildStatus) :=
  run_with s rid fun repr =>
    match repr with
    | .Child _ => .ok (.ok { rid })
    | _ => .ok (.error (bad_resource rid))

/-- `pub fn readline(rid, prompt) -> DenoResult<String>`: `run_with` on
`rid`; a `Repl` variant delegates to the repl primitive (propagating its
result), any other variant yields the recoverable `bad_resource` error.
An absent id panics inside `run_with`. The prompt is forwarded to the
repl primitive, whose response is abstracted in the payload. -/
def readline (s : GlobalState) (rid : ResourceId) (prompt : String) :
    Outcome (Except DenoErr String) :=
  let _ := prompt
  run_with s rid fun repr =>
    match repr with
    | .Repl res => .ok res
    | _ => .ok (.error (bad_resource rid))

/-- `pub struct ChildResources`. -/
structure ChildResources where
  child_rid : ResourceId
  stdin_rid : Option ResourceId
  stdout_rid : Option ResourceId
  stderr_rid : Option ResourceId
deriving DecidableEq

/-- The per-stream pattern `c.stdin().take().map(|fd|
RESOURCE_TABLE.insert(Repr::ChildStdin(fd)).rid)` of `add_child`: if the
stream was captured, insert its pipe as the given variant and record the
issued rid as `Some`; otherwise `None` and the state is unchanged. -/
def optInsertPipe (pipe : Option (IoPoll Nat)) (mk : IoPoll Nat → Repr)
    (st : GlobalState) : Outcome (Option ResourceId × GlobalState) :=
  match pipe with
  | none => .ok (none, st)
  | some fd => (tableInsert st (mk fd)).bind fun (res, st2) =>
      .ok (some res.rid, st2)

/-- `pub fn add_child(c) -> ChildResources` (lock-based path): for each
captured pipe, `take()` it out of the child and insert it as its pipe
variant; then always insert the child itself (with its pipes taken)
as a `Child` resource. -/
def add_child (s : GlobalState) (c : ChildModel) :
    Outcome (ChildResources × GlobalState) :=
  (optInsertPipe c.stdinPipe Repr.ChildStdin s).bind fun (stdin_rid, s1) =>
  (optInsertPipe c.stdoutPipe Repr.ChildStdout s1).bind fun (stdout_rid, s2) =>
  (optInsertPipe c.stderrPipe Repr.ChildStderr s2).bind fun (stderr_rid, s3) =>
  (tableInsert s3 (Repr.Child
      { c with stdinPipe := none, stdoutPipe := none, stderrPipe := none
      })).bind fun (childRes, s4) =>
  .ok ({ child_rid := childRes.rid, stdin_rid, stdout_rid, stderr_rid }, s4)

/-- `struct ResourceTable2`: the actor-owned table with its own plain
`u32` id counter. -/
structure ResourceTable2 where
  rid_gen : Nat
  table : ReprMap
deriving DecidableEq

/-- `ResourceTable2::insert`: `rid_gen.checked_add(1).expect("resource id
is exhausted")` (panic at `u32::MAX`), then insert at the incremented id,
panicking if that id is already present. -/
def ResourceTable2.insert (t : ResourceTable2) (repr : Repr) :
    Outcome (Resource × ResourceTable2) :=
  if t.rid_gen + 1 ≥ U32LIM then .panic "resource id is exhausted"
  else
    let g := t.rid_gen + 1
    let (old, m2) := mapInsert t.table g repr
    match old with
    | some _ => .panic "There is already a file with that rid"
    | none => .ok ({ rid := g }, { rid_gen := g, table := m2 })

/-- The table the worker thread builds at startup in
`ResourceManager::new`: `rid_gen = 3` and the three stdio entries. -/
def freshTable2 (pin pout perr : IoPoll Nat) : ResourceTable2 :=
  { rid_gen := 3, table := seedTable pin pout perr }

/-- `enum WorkItem` (reply channels abstracted away; replies are recorded
in the manager state instead). -/
inductive WorkItem where
  | Insert (repr : Repr)
  | InsertChild (child : ChildModel)
  | CollectEntries
deriving DecidableEq

/-- The reply the worker sends back over the one-shot channel for each
kind of request. -/
inductive Reply where
  | Insert (r : Resource)
  | InsertChild (cr : ChildResources)
  | CollectEntries (entries : List (ResourceId × String))
deriving DecidableEq

/-- The per-stream pattern of the `WorkItem::InsertChild` worker branch:
if the stream was captured, insert its pipe into the actor table as the
given variant and record the issued rid as `Some`; otherwise `None`. -/
def optInsertPipe2 (pipe : Option (IoPoll Nat)) (mk : IoPoll Nat → Repr)
    (tb : ResourceTable2) : Outcome (Option ResourceId × ResourceTable2) :=
  match pipe with
  | none => .ok (none, tb)
  | some fd => (tb.insert (mk fd)).bind fun (res, tb2) =>
      .ok (some res.rid, tb2)

/-- The `WorkItem::InsertChild` branch of the worker loop: insert each
captured pipe, then the child itself, into the actor table, producing the
`ChildResources` bundle. -/
def insertChildHandler (t : ResourceTable2) (c : ChildModel) :
    Outcome (ChildResources × ResourceTable2) :=
  (optInsertPipe2 c.stdinPipe Repr.ChildStdin t).bind fun (stdin_rid, t1) =>
  (optInsertPipe2 c.stdoutPipe Repr.ChildStdout t1).bind fun (stdout_rid, t2) =>
  (optInsertPipe2 c.stderrPipe Repr.ChildStderr t2).bind fun (stderr_rid, t3) =>
  (t3.insert (Repr.Child
      { c with stdinPipe := none, stdoutPipe := none, stderrPipe := none
      })).bind fun (childRes, t4) =>
  .ok ({ child_rid := childRes.rid, stdin_rid, stdout_rid, stderr_rid }, t4)

/-- The `WorkItem::CollectEntries` snapshot the worker computes from its
table. -/
def collectEntries (t : ResourceTable2) : List (ResourceId × String) :=
  t.table.map fun kv => (kv.1, inspect_repr kv.2)

/-- Processing of one received `WorkItem` by the worker loop body,
returning the reply it sends. -/
def processItem (t : ResourceTable2) : WorkItem → Outcome (Reply × ResourceTable2)
  | .Insert repr => (t.insert repr).bind fun (res, t2) => .ok (.Insert res, t2)
  | .InsertChild c =>
      (insertChildHandler t c).bind fun (cr, t2) => .ok (.InsertChild cr, t2)
  | .CollectEntries => .ok (.CollectEntries (collectEntries t), t)

/-- Where the worker thread currently is: about to test
`RESOURCE_THREAD_RUNNING` at the top of its `while` loop, blocked in
`rx.recv()`, or returned (its `Receiver` dropped). -/
inductive WorkerPhase where
  | checkFlag
  | receiving
  | exited
deriving DecidableEq

/-- State of the actor-based manager: the `RESOURCE_THREAD_RUNNING` flag,
the mpsc channel's pending messages, the worker's position, its private
table, and the replies it has sent (for observation). -/
structure ManagerState where
  running : Bool
  queue : List WorkItem
  phase : WorkerPhase
  resTable : ResourceTable2
  replies : List Reply
deriving DecidableEq

/-- The manager right after `ResourceManager::new`: flag set, empty
channel, worker spawned at the top of its loop with the seeded table. -/
def managerInit (pin pout perr : IoPoll Nat) : ManagerState :=
  { running := true, queue := [], phase := .checkFlag,
    resTable := freshTable2 pin pout perr, replies := [] }

/-- One step of the worker thread: at the loop head it tests the flag and
either proceeds to `rx.recv()` or returns; while receiving it takes the
next pending message (if any) and processes it, landing back at the loop
head. A worker blocked on an empty channel makes no progress. -/
def workerStep (s : ManagerState) : Outcome ManagerState :=
  match s.phase with
  | .checkFlag =>
      .ok { s with phase := if s.running then .receiving else .exited }
  | .receiving =>
      match s.queue with
      | [] => .ok s
      | w :: rest =>
          (processItem s.resTable w).bind fun (rep, t2) =>
            .ok { s with queue := rest, resTable := t2,
                         replies := s.replies ++ [rep], phase := .checkFlag }
  | .exited => .ok s

/-- Submission of a `WorkItem` over the mpsc channel
(`self.tx.send(w).expect("resource manager thread is dead")`): the send
fails, and the `expect` panics, exactly when the worker has returned and
dropped its `Receiver`; otherwise the message joins the queue. -/
def submit (s : ManagerState) (w : WorkItem) : Outcome ManagerState :=
  if s.phase = .exited then .panic "resource manager thread is dead"
  else .ok { s with queue := s.queue ++ [w] }

/-- `ResourceManager::close`: stores `false` into
`RESOURCE_THREAD_RUNNING` (and clears the global singleton reference).
It does not interact with the worker thread directly. -/
def ResourceManager.close (s : ManagerState) : ManagerState :=
  { s with running := false }

/-- Iterated `ResourceTable::insert` (lock-based path): inserts the given
payloads in order, collecting the issued rids. -/
def insertManyLock (s : GlobalState) :
    List Repr → Outcome (List ResourceId × GlobalState)
  | [] => .ok ([], s)
  | r :: rest =>
    (tableInsert s r).bind fun (res, s1) =>
      (insertManyLock s1 rest).bind fun (rids, s2) =>
        .ok (res.rid :: rids, s2)

/-- Iterated `ResourceTable2::insert` (actor path): inserts the given
payloads in order, collecting the issued rids. -/
def insertMany2 (t : ResourceTable2) :
    List Repr → Outcome (List ResourceId × ResourceTable2)
  | [] => .ok ([], t)
  | r :: rest =>
    (t.insert r).bind fun (res, t1) =>
      (insertMany2 t1 rest).bind fun (rids, t2) =>
        .ok (res.rid :: rids, t2)

/-- A concrete poll response for sample states: the primitive is not
ready. -/
def pollPending : IoPoll Nat := .ok .notReady

/-- A concrete fresh lock-based state for witnesses. -/
def fresh0 : GlobalState := freshGlobal pollPending pollPending pollPending

/-- A concrete fresh actor table for witnesses. -/
def freshT2c : ResourceTable2 := freshTable2 pollPending pollPending pollPending

/-- A concrete non-stdio payload for witnesses. -/
def reprX : Repr := .HttpBody pollPending

/-- The lock-based state after `Resource::close` on id 0 from `fresh0`. -/
def fresh0Closed0 : GlobalState :=
  { nextRid := 3,
    table := [(1, Repr.Stdout pollPending), (2, Repr.Stderr pollPending)] }

/-- A concrete spawned child whose configuration captured only stdout. -/
def childOutOnly : ChildModel :=
  { stdinPipe := none, stdoutPipe := some pollPending, stderrPipe := none,
    status := .ok .notReady }

/-- A concrete spawned child with stdout captured, for the mixed sample
state. -/
def childM0 : ChildModel :=
  { stdinPipe := none, stdoutPipe := none, stderrPipe := none,
    status := .ok .notReady }

/-- A concrete lock-based state holding a `Child` at id 5 and a `Repl` at
id 6, for witnesses about the higher-level named operations. -/
def sampleState : GlobalState :=
  { nextRid := 7,
    table := [(0, Repr.Stdin pollPending), (5, Repr.Child childM0),
              (6, Repr.Repl (.ok "hi"))] }

/-- A concrete fresh manager state for witnesses. -/
def managerInit0 : ManagerState :=
  managerInit pollPending pollPending pollPending

/-- The fresh manager after its worker passed the flag test and blocked in
`rx.recv()`. -/
def mgrRecv : ManagerState := { managerInit0 with phase := .receiving }

/-- `mgrRecv` after `ResourceManager::close` and one more
`table_entries`-style submission: the flag is down but the still-blocked
worker holds the channel open, so the message was queued. -/
def mgrClosedPending : ManagerState :=
  { mgrRecv with running := false, queue := [.CollectEntries] }

/-- `mgrClosedPending` after the worker wakes from `recv` and serves the
request: the reply was sent and the worker is back at the loop head. -/
def mgrServed : ManagerState :=
  { mgrClosedPending with
    queue := []
    phase := WorkerPhase.checkFlag
    replies := [Reply.CollectEntries [(0, "stdin"), (1, "stdout"), (2, "stderr")]] }

/-- `mgrServed` after the worker retests the (now false) flag and
returns, dropping its `Receiver`. -/
def mgrDead : ManagerState := { mgrServed with phase := .exited }

/-! ### Helper lemmas about the map model and the two allocators -/

theorem mapLookup_eq_none_iff (m : ReprMap) (k : ResourceId) :
    mapLookup m k = none ↔ k ∉ m.map Prod.fst := by
  induction m with
  | nil => simp [mapLookup]
  | cons kv rest ih =>
    obtain ⟨k2, v⟩ := kv
    by_cases hk : k2 = k
    · subst hk; simp [mapLookup]
    · simp [mapLookup, hk, ih, Ne.symm hk]

theorem mapLookup_none_of_allKeysLt {m : ReprMap} {b k : Nat}
    (h : allKeysLt m b = true) (hk : b ≤ k) : mapLookup m k = none := by
  rw [mapLookup_eq_none_iff]
  intro hmem
  simp only [allKeysLt, List.all_eq_true, decide_eq_true_eq] at h
  obtain ⟨a, hkv, ha⟩ := List.mem_map.mp hmem
  have h1 : a.1 < b := h a hkv
  rw [ha] at h1
  exact absurd h1 (Nat.not_lt.mpr hk)

theorem mapInsert_lookup_none {m : ReprMap} {k : Nat} (v : Repr)
    (h : mapLookup m k = none) : mapInsert m k v = (none, m ++ [(k, v)]) := by
  induction m with
  | nil => rfl
  | cons kv rest ih =>
    obtain ⟨k2, v2⟩ := kv
    by_cases hk : k2 = k
    · simp [mapLookup, hk] at h
    · simp only [mapLookup, if_neg hk] at h
      simp [mapInsert, hk, ih h]

theorem mapLookup_mapInsert_self (m : ReprMap) (k : ResourceId) (v : Repr) :
    mapLookup (mapInsert m k v).2 k = some v := by
  induction m with
  | nil => simp [mapInsert, mapLookup]
  | cons kv rest ih =>
    obtain ⟨k2, v2⟩ := kv
    by_cases hk : k2 = k
    · simp [mapInsert, hk, mapLookup]
    · simp [mapInsert, hk, mapLookup, ih]

theorem mapLookup_mapInsert_ne (m : ReprMap) {k k2 : ResourceId} (v : Repr)
    (h : k2 ≠ k) : mapLookup (mapInsert m k v).2 k2 = mapLookup m k2 := by
  induction m with
  | nil => simp [mapInsert, mapLookup, Ne.symm h]
  | cons kv rest ih =>
    obtain ⟨ka, va⟩ := kv
    by_cases hka : ka = k
    · subst hka
      simp [mapInsert, mapLookup, Ne.symm h]
    · by_cases hk2 : ka = k2
      · subst hk2
        simp [mapInsert, hka, mapLookup]
      · simp [mapInsert, hka, mapLookup, hk2, ih]

theorem mapRemove_fst (m : ReprMap) (k : ResourceId) :
    (mapRemove m k).1 = mapLookup m k := by
  induction m with
  | nil => rfl
  | cons kv rest ih =>
    obtain ⟨k2, v⟩ := kv
    by_cases hk : k2 = k <;> simp [mapRemove, mapLookup, hk, ih]

theorem mapRemove_lookup_self {m : ReprMap} (k : ResourceId)
    (h : (m.map Prod.fst).Nodup) : mapLookup (mapRemove m k).2 k = none := by
  induction m with
  | nil => rfl
  | cons kv rest ih =>
    obtain ⟨k2, v⟩ := kv
    simp only [List.map_cons, List.nodup_cons] at h
    by_cases hk : k2 = k
    · subst hk
      simpa [mapRemove, mapLookup_eq_none_iff] using h.1
    · simpa [mapRemove, hk, mapLookup, hk] using ih h.2

theorem allKeysLt_mono {m : ReprMap} {b b2 : Nat}
    (h : allKeysLt m b = true) (hb : b ≤ b2) : allKeysLt m b2 = true := by
  simp only [allKeysLt, List.all_eq_true, decide_eq_true_eq] at h ⊢
  exact fun kv hkv => lt_of_lt_of_le (h kv hkv) hb

theorem allKeysLt_append {m : ReprMap} {b k : Nat} (v : Repr)
    (h : allKeysLt m b = true) (hk : k < b) :
    allKeysLt (m ++ [(k, v)]) b = true := by
  simp only [allKeysLt, List.all_eq_true, decide_eq_true_eq, List.mem_append,
    List.mem_singleton] at h ⊢
  rintro kv (hkv | rfl)
  · exact h kv hkv
  · exact hk

/-- A successful `ResourceTable::insert` from a state whose counter is in
the 32-bit range: the issued rid is the counter value, the counter
advances by one, the payload is stored at the rid and every other id is
untouched. -/
theorem tableInsert_ok_small {s : GlobalState} {r : Repr} {res : Resource}
    {s2 : GlobalState} (hv : s.nextRid + 1 ≤ U32LIM)
    (h : tableInsert s r = .ok (res, s2)) :
    res.rid = s.nextRid ∧ s2.nextRid = s.nextRid + 1
    ∧ mapLookup s2.table res.rid = some r
    ∧ (∀ k, k ≠ res.rid → mapLookup s2.table k = mapLookup s.table k) := by
  have hvlt : s.nextRid < U32LIM := by omega
  have hvs : s.nextRid + 1 < USIZELIM := by
    have : U32LIM < USIZELIM := by unfold U32LIM USIZELIM; norm_num
    omega
  unfold tableInsert new_rid at h
  simp only [Nat.mod_eq_of_lt hvlt, Nat.mod_eq_of_lt hvs] at h
  rcases hins : mapInsert s.table s.nextRid r with ⟨old, m2⟩
  rw [hins] at h
  cases old with
  | some w => simp at h
  | none =>
    simp only [Outcome.ok.injEq, Prod.mk.injEq] at h
    obtain ⟨hres, hs2⟩ := h
    subst hres hs2
    refine ⟨rfl, rfl, ?_, ?_⟩
    · have := mapLookup_mapInsert_self s.table s.nextRid r
      simpa [hins] using this
    · intro k hkne
      have := mapLookup_mapInsert_ne s.table r hkne
      simpa [hins] using this

/-- A successful `ResourceTable2::insert`: the issued rid is the
incremented counter, the payload is stored at it, every other id is
untouched. -/
theorem table2Insert_ok {t : ResourceTable2} {r : Repr} {res : Resource}
    {t2 : ResourceTable2} (h : ResourceTable2.insert t r = .ok (res, t2)) :
    res.rid = t.rid_gen + 1 ∧ t2.rid_gen = t.rid_gen + 1
    ∧ mapLookup t2.table res.rid = some r
    ∧ (∀ k, k ≠ res.rid → mapLookup t2.table k = mapLookup t.table k) := by
  unfold ResourceTable2.insert at h
  by_cases hg : t.rid_gen + 1 ≥ U32LIM
  · simp [hg] at h
  · simp only [hg, if_neg, ite_false] at h
    rcases hins : mapInsert t.table (t.rid_gen + 1) r with ⟨old, m2⟩
    rw [hins] at h
    cases old with
    | some w => simp at h
    | none =>
      simp only [Outcome.ok.injEq, Prod.mk.injEq] at h
      obtain ⟨hres, ht2⟩ := h
      subst hres ht2
      refine ⟨rfl, rfl, ?_, ?_⟩
      · have := mapLookup_mapInsert_self t.table (t.rid_gen + 1) r
        simpa [hins] using this
      · intro k hkne
        have := mapLookup_mapInsert_ne t.table r hkne
        simpa [hins] using this

/-- Iterated `ResourceTable::insert` from a counter value `v` with all
table keys below `v` and no 32-bit wrap in reach: the issued rids are
exactly `v, v+1, …`, the counter advances by the number of insertions,
and all keys stay below the new counter. -/
theorem insertManyLock_spec :
    ∀ (reprs : List Repr) (v : Nat) (m : ReprMap),
    v + reprs.length ≤ U32LIM → allKeysLt m v = true →
    ∃ m2, insertManyLock ⟨v, m⟩ reprs
        = .ok (List.range' v reprs.length, ⟨v + reprs.length, m2⟩)
      ∧ allKeysLt m2 (v + reprs.length) = true := by
  intro reprs
  induction reprs with
  | nil =>
    intro v m _ hkeys
    exact ⟨m, by simp [insertManyLock, List.range'], hkeys⟩
  | cons r rest ih =>
    intro v m hbound hkeys
    have hv : v < U32LIM := by
      simp only [List.length_cons] at hbound; omega
    have hvs : v + 1 < USIZELIM := by
      have : U32LIM < USIZELIM := by unfold U32LIM USIZELIM; norm_num
      omega
    have hlk : mapLookup m v = none :=
      mapLookup_none_of_allKeysLt hkeys (le_refl v)
    have hins : tableInsert ⟨v, m⟩ r = .ok (⟨v⟩, ⟨v + 1, m ++ [(v, r)]⟩) := by
      unfold tableInsert new_rid
      simp [Nat.mod_eq_of_lt hv, Nat.mod_eq_of_lt hvs,
        mapInsert_lookup_none r hlk]
    have hkeys2 : allKeysLt (m ++ [(v, r)]) (v + 1) = true :=
      allKeysLt_append r (allKeysLt_mono hkeys (Nat.le_succ v))
        (Nat.lt_succ_self v)
    obtain ⟨m2, hrun, hk2⟩ := ih (v + 1) (m ++ [(v, r)])
      (by simp only [List.length_cons] at hbound; omega) hkeys2
    refine ⟨m2, ?_, ?_⟩
    · have harith : v + 1 + rest.length = v + (rest.length + 1) := by omega
      rw [harith] at hrun
      simp [insertManyLock, Outcome.bind, hins, hrun, List.range'_succ]
    · have harith : v + 1 + rest.length = v + (rest.length + 1) := by omega
      rw [harith] at hk2
      simpa using hk2

/-- Iterated `ResourceTable2::insert` from counter `g` with all keys at
most `g` and no u32 overflow in reach: the issued rids are exactly
`g+1, g+2, …`. -/
theorem insertMany2_spec :
    ∀ (reprs : List Repr) (g : Nat) (m : ReprMap),
    g + reprs.length < U32LIM → allKeysLt m (g + 1) = true →
    ∃ m2, insertMany2 ⟨g, m⟩ reprs
        = .ok (List.range' (g + 1) reprs.length, ⟨g + reprs.length, m2⟩)
      ∧ allKeysLt m2 (g + reprs.length + 1) = true := by
  intro reprs
  induction reprs with
  | nil =>
    intro g m _ hkeys
    exact ⟨m, by simp [insertMany2, List.range'], hkeys⟩
  | cons r rest ih =>
    intro g m hbound hkeys
    have hg : ¬ g + 1 + 1 > U32LIM := by
      simp only [List.length_cons] at hbound; omega
    have hg2 : ¬ g + 1 ≥ U32LIM := by
      simp only [List.length_cons] at hbound; omega
    have hlk : mapLookup m (g + 1) = none :=
      mapLookup_none_of_allKeysLt hkeys (le_refl (g + 1))
    have hins : ResourceTable2.insert ⟨g, m⟩ r
        = .ok (⟨g + 1⟩, ⟨g + 1, m ++ [(g + 1, r)]⟩) := by
      unfold ResourceTable2.insert
      simp [hg2, mapInsert_lookup_none r hlk]
    have hkeys2 : allKeysLt (m ++ [(g + 1, r)]) (g + 1 + 1) = true :=
      allKeysLt_append r (allKeysLt_mono hkeys (Nat.le_succ (g + 1)))
        (Nat.lt_succ_self (g + 1))
    obtain ⟨m2, hrun, hk2⟩ := ih (g + 1) (m ++ [(g + 1, r)])
      (by simp only [List.length_cons] at hbound; omega) hkeys2
    refine ⟨m2, ?_, ?_⟩
    · have harith : g + 1 + rest.length = g + (rest.length + 1) := by omega
      rw [harith] at hrun
      simp [insertMany2, Outcome.bind, hins, hrun, List.range'_succ]
    · have harith : g + 1 + rest.length = g + (rest.length + 1) := by omega
      rw [harith] at hk2
      simpa using hk2

/-- Elimination for a successful `Outcome.bind`: the first computation
succeeded and the continuation succeeded on its result. -/
theorem bind_ok_elim {α β : Type} {o : Outcome α} {f : α → Outcome β} {b : β}
    (h : o.bind f = .ok b) : ∃ a, o = .ok a ∧ f a = .ok b := by
  cases o with
  | ok a => exact ⟨a, rfl, h⟩
  | panic m => simp [Outcome.bind] at h

/-- A successful `tableInsert` (counter in u32 range) keeps every key
below the pre-state counter unchanged. -/
theorem tableInsert_preserves_low {s : GlobalState} {r : Repr}
    {res : Resource} {s2 : GlobalState} (hv : s.nextRid + 1 ≤ U32LIM)
    (h : tableInsert s r = .ok (res, s2)) :
    ∀ k, k < s.nextRid → mapLookup s2.table k = mapLookup s.table k := by
  obtain ⟨hrid, -, -, hpres⟩ := tableInsert_ok_small hv h
  intro k hk
  refine hpres k ?_
  rw [hrid]
  exact Nat.ne_of_lt hk

/-- A successful `ResourceTable2::insert` keeps every key at most the
pre-state counter unchanged. -/
theorem table2Insert_preserves_low {t : ResourceTable2} {r : Repr}
    {res : Resource} {t2 : ResourceTable2}
    (h : ResourceTable2.insert t r = .ok (res, t2)) :
    ∀ k, k ≤ t.rid_gen → mapLookup t2.table k = mapLookup t.table k := by
  obtain ⟨hrid, -, -, hpres⟩ := table2Insert_ok h
  intro k hk
  refine hpres k ?_
  rw [hrid]
  exact Nat.ne_of_lt (Nat.lt_succ_of_le hk)

/-- Behavior of a successful `optInsertPipe` (counter in u32 range): the
recorded id is `Some` exactly when the stream was captured; the counter
advances by at most one; keys below the old counter are unchanged; and a
recorded id equals the old counter value and now maps to the pipe variant
built from the captured stream. -/
theorem optInsertPipe_spec {pipe : Option (IoPoll Nat)}
    {mk : IoPoll Nat → Repr} {s : GlobalState} {sr : Option ResourceId}
    {s2 : GlobalState} (hv : s.nextRid + 1 ≤ U32LIM)
    (h : optInsertPipe pipe mk s = .ok (sr, s2)) :
    sr.isSome = pipe.isSome
    ∧ s.nextRid ≤ s2.nextRid ∧ s2.nextRid ≤ s.nextRid + 1
    ∧ (∀ k, k < s.nextRid → mapLookup s2.table k = mapLookup s.table k)
    ∧ (∀ rid, sr = some rid →
        rid = s.nextRid ∧ s2.nextRid = s.nextRid + 1
        ∧ ∃ fd, pipe = some fd ∧ mapLookup s2.table rid = some (mk fd)) := by
  cases pipe with
  | none =>
    simp only [optInsertPipe, Outcome.ok.injEq, Prod.mk.injEq] at h
    obtain ⟨h1, h2⟩ := h
    subst h1 h2
    exact ⟨rfl, le_refl _, Nat.le_succ _, fun k _ => rfl, by simp⟩
  | some fd =>
    simp only [optInsertPipe] at h
    obtain ⟨⟨res, st2⟩, e1, e2⟩ := bind_ok_elim h
    simp only [Outcome.ok.injEq, Prod.mk.injEq] at e2
    obtain ⟨h1, h2⟩ := e2
    subst h1 h2
    obtain ⟨o1, o2, o3, -⟩ := tableInsert_ok_small hv e1
    refine ⟨rfl, ?_, ?_, tableInsert_preserves_low hv e1, ?_⟩
    · rw [o2]; exact Nat.le_succ _
    · exact le_of_eq o2
    · intro rid hr
      simp only [Option.some.injEq] at hr
      subst hr
      exact ⟨o1, o2, fd, rfl, o3⟩

/-- Behavior of a successful `optInsertPipe2`: as `optInsertPipe_spec`,
for the actor table (no range hypothesis is needed: overflow panics
instead of wrapping). -/
theorem optInsertPipe2_spec {pipe : Option (IoPoll Nat)}
    {mk : IoPoll Nat → Repr} {t : ResourceTable2} {sr : Option ResourceId}
    {t2 : ResourceTable2}
    (h : optInsertPipe2 pipe mk t = .ok (sr, t2)) :
    sr.isSome = pipe.isSome
    ∧ t.rid_gen ≤ t2.rid_gen ∧ t2.rid_gen ≤ t.rid_gen + 1
    ∧ (∀ k, k ≤ t.rid_gen → mapLookup t2.table k = mapLookup t.table k)
    ∧ (∀ rid, sr = some rid →
        rid = t.rid_gen + 1 ∧ t2.rid_gen = t.rid_gen + 1
        ∧ ∃ fd, pipe = some fd ∧ mapLookup t2.table rid = some (mk fd)) := by
  cases pipe with
  | none =>
    simp only [optInsertPipe2, Outcome.ok.injEq, Prod.mk.injEq] at h
    obtain ⟨h1, h2⟩ := h
    subst h1 h2
    exact ⟨rfl, le_refl _, Nat.le_succ _, fun k _ => rfl, by simp⟩
  | some fd =>
    simp only [optInsertPipe2] at h
    obtain ⟨⟨res, tb2⟩, e1, e2⟩ := bind_ok_elim h
    simp only [Outcome.ok.injEq, Prod.mk.injEq] at e2
    obtain ⟨h1, h2⟩ := e2
    subst h1 h2
    obtain ⟨o1, o2, o3, -⟩ := table2Insert_ok e1
    refine ⟨rfl, ?_, ?_, table2Insert_preserves_low e1, ?_⟩
    · rw [o2]; exact Nat.le_succ _
    · exact le_of_eq o2
    · intro rid hr
      simp only [Option.some.injEq] at hr
      subst hr
      exact ⟨o1, o2, fd, rfl, o3⟩

theorem U32LIM_eq : U32LIM = 4294967296 := by norm_num [U32LIM]

theorem USIZELIM_eq : USIZELIM = 18446744073709551616 := by norm_num [USIZELIM]

end Deno

/-- C1: the claim states that in every allocator state where issuing the
next id would leave the 32-bit range, allocation fails fatally for both
`new_rid` and `ResourceTable2::insert`. Counterexample for `new_rid`: at
counter value `2^32` (the first value outside the u32 range) it does not
fail — the `as u32` cast silently truncates, returning id 0, an id that
is live in the fresh table (stdin). -/
theorem C1_counterexample :
    Deno.new_rid { nextRid := Deno.U32LIM, table := Deno.fresh0.table }
      = (0, { nextRid := Deno.U32LIM + 1, table := Deno.fresh0.table })
    ∧ Deno.mapLookup Deno.fresh0.table 0
        = some (Deno.Repr.Stdin Deno.pollPending) := by
  constructor
  · decide
  · decide

/-- C1 (amended): `ResourceTable2::insert` does fail fatally — it panics
`"resource id is exhausted"` whenever incrementing `rid_gen` would leave
the u32 range — but `new_rid` has no check at all: it returns its usize
counter truncated modulo `2^32` (so at counter `2^32` it silently wraps
to id 0) and advances the counter modulo `2^64`. -/
theorem C1_theorem :
    (∀ (m : Deno.ReprMap) (r : Deno.Repr),
       Deno.ResourceTable2.insert ⟨Deno.U32LIM - 1, m⟩ r
         = .panic "resource id is exhausted")
    ∧ (∀ s : Deno.GlobalState,
       (Deno.new_rid s).1 = s.nextRid % Deno.U32LIM
       ∧ (Deno.new_rid s).2.nextRid = (s.nextRid + 1) % Deno.USIZELIM)
    ∧ (∀ m : Deno.ReprMap,
       Deno.new_rid ⟨Deno.U32LIM, m⟩ = (0, ⟨Deno.U32LIM + 1, m⟩)) := by
  refine ⟨?_, fun s => ⟨rfl, rfl⟩, ?_⟩
  · intro m r
    unfold Deno.ResourceTable2.insert
    have hge : Deno.U32LIM - 1 + 1 ≥ Deno.U32LIM := by
      rw [Deno.U32LIM_eq]
    simp [hge]
  · intro m
    unfold Deno.new_rid
    have h1 : Deno.U32LIM % Deno.U32LIM = 0 := Nat.mod_self _
    have h2 : (Deno.U32LIM + 1) % Deno.USIZELIM = Deno.U32LIM + 1 :=
      Nat.mod_eq_of_lt (by rw [Deno.U32LIM_eq, Deno.USIZELIM_eq]; norm_num)
    simp [h1, h2]

/-- C2: the claim states that both allocators issue 3 as the first id.
Counterexample: the first `ResourceTable2::insert` on the freshly seeded
actor table issues id 4, because `insert` increments `rid_gen` (initially
3) before using it. -/
theorem C2_counterexample :
    Deno.ResourceTable2.insert Deno.freshT2c Deno.reprX
      = .ok (⟨4⟩, ⟨4, Deno.freshT2c.table ++ [(4, Deno.reprX)]⟩)
    ∧ (4 : Nat) ≠ 3 := ⟨by decide, by decide⟩

/-- C2 (amended): from the fresh states, the lock-based path issues
3, 4, 5, … (first id 3) as long as the counter stays in the u32 range,
while the actor path issues 4, 5, 6, … (first id 4, since `rid_gen` is
pre-incremented from 3); in both cases the ids of N insertions with no
closes are strictly increasing, pairwise distinct and each ≥ 3. -/
theorem C2_theorem :
    ∀ (reprs : List Deno.Repr) (pin pout perr : Deno.IoPoll Nat),
      (reprs.length ≤ Deno.U32LIM - 3 →
        ∃ m2, Deno.insertManyLock (Deno.freshGlobal pin pout perr) reprs
            = .ok (List.range' 3 reprs.length, ⟨3 + reprs.length, m2⟩))
      ∧ (3 + reprs.length < Deno.U32LIM →
        ∃ m2, Deno.insertMany2 (Deno.freshTable2 pin pout perr) reprs
            = .ok (List.range' 4 reprs.length, ⟨3 + reprs.length, m2⟩))
      ∧ (List.range' 3 reprs.length).Pairwise (· < ·)
      ∧ (List.range' 4 reprs.length).Pairwise (· < ·)
      ∧ (List.range' 3 reprs.length).Nodup
      ∧ (List.range' 4 reprs.length).Nodup
      ∧ (∀ x ∈ List.range' 3 reprs.length, 3 ≤ x)
      ∧ (∀ x ∈ List.range' 4 reprs.length, 3 ≤ x)
      ∧ (0 < reprs.length →
          (List.range' 3 reprs.length).head? = some 3
          ∧ (List.range' 4 reprs.length).head? = some 4) := by
  intro reprs pin pout perr
  refine ⟨?_, ?_, List.pairwise_lt_range' 3 _, List.pairwise_lt_range' 4 _,
    List.nodup_range' 3 _, List.nodup_range' 4 _, ?_, ?_, ?_⟩
  · intro hlen
    have hb : 3 + reprs.length ≤ Deno.U32LIM := by
      rw [Deno.U32LIM_eq] at *; omega
    have h := Deno.insertManyLock_spec reprs 3 (Deno.seedTable pin pout perr)
      hb rfl
    exact h.imp fun m2 hm => hm.1
  · intro hlen
    have h := Deno.insertMany2_spec reprs 3 (Deno.seedTable pin pout perr)
      hlen rfl
    exact h.imp fun m2 hm => hm.1
  · intro x hx; exact (List.mem_range'_1.mp hx).1
  · intro x hx
    have := (List.mem_range'_1.mp hx).1
    omega
  · intro hlen
    obtain ⟨n, hn⟩ : ∃ n, reprs.length = n + 1 :=
      ⟨reprs.length - 1, by omega⟩
    rw [hn]
    simp [List.range'_succ]

/-- C2 witness: the amended statement applied to two concrete insertions
from the fresh states — the lock path issues ids 3, 4 and the actor path
issues ids 4, 5. -/
theorem C2_witness :
    (∃ m2, Deno.insertManyLock Deno.fresh0 [Deno.reprX, Deno.reprX]
        = .ok ([3, 4], ⟨5, m2⟩))
    ∧ (∃ m2, Deno.insertMany2 Deno.freshT2c [Deno.reprX, Deno.reprX]
        = .ok ([4, 5], ⟨5, m2⟩)) := by
  have h := C2_theorem [Deno.reprX, Deno.reprX]
    Deno.pollPending Deno.pollPending Deno.pollPending
  obtain ⟨h1, h2, -⟩ := h
  constructor
  · obtain ⟨m2, hm⟩ := h1 (by decide)
    exact ⟨m2, by simpa [List.range'] using hm⟩
  · obtain ⟨m2, hm⟩ := h2 (by decide)
    exact ⟨m2, by simpa [List.range'] using hm⟩

/-- C3: on an id absent from the lock-based table (in particular any
previously-closed id, since a successful close leaves the id absent),
every low-level dispatch operation — `poll_read`, `poll_write`,
`poll_accept`, `shutdown`, all routed through `ResourceTable::run_with` —
panics with `"bad rid"`, and `close` on such an id fails its assertion;
none of them is a silent no-op. -/
theorem C3_theorem :
    (∀ (s : Deno.GlobalState) (rid : Deno.ResourceId) (buf : List Nat)
       (how : Deno.ShutdownMode),
       Deno.mapLookup s.table rid = none →
         Deno.Resource.poll_read s ⟨rid⟩ buf
             = .panic ("bad rid " ++ toString rid)
         ∧ Deno.Resource.poll_write s ⟨rid⟩ buf
             = .panic ("bad rid " ++ toString rid)
         ∧ Deno.Resource.poll_accept s ⟨rid⟩
             = .panic ("bad rid " ++ toString rid)
         ∧ Deno.Resource.shutdown s ⟨rid⟩ how
             = .panic ("bad rid " ++ toString rid)
         ∧ Deno.Resource.close s ⟨rid⟩
             = .panic "assertion failed: r.is_some()")
    ∧ (∀ (s s2 : Deno.GlobalState) (r : Deno.Resource),
       (s.table.map Prod.fst).Nodup →
       Deno.Resource.close s r = .ok s2 →
       Deno.mapLookup s2.table r.rid = none) := by
  constructor
  · intro s rid buf how hnone
    have hrm : (Deno.mapRemove s.table rid).1 = none := by
      rw [Deno.mapRemove_fst]; exact hnone
    refine ⟨?_, ?_, ?_, ?_, ?_⟩
    · simp [Deno.Resource.poll_read, Deno.run_with, hnone]
    · simp [Deno.Resource.poll_write, Deno.run_with, hnone]
    · simp [Deno.Resource.poll_accept, Deno.run_with, hnone]
    · simp [Deno.Resource.shutdown, Deno.run_with, hnone]
    · rcases hrm2 : Deno.mapRemove s.table rid with ⟨old, m2⟩
      rw [hrm2] at hrm
      simp only at hrm
      subst hrm
      simp [Deno.Resource.close, hrm2]
  · intro s s2 r hnodup hok
    rcases hrm2 : Deno.mapRemove s.table r.rid with ⟨old, m2⟩
    unfold Deno.Resource.close at hok
    rw [hrm2] at hok
    cases old with
    | none => simp at hok
    | some w =>
      simp only [Option.isSome_some, if_true] at hok
      have hs2 : s2.table = m2 := by
        cases hok' : hok
        rfl
      rw [hs2]
      have := Deno.mapRemove_lookup_self r.rid hnodup (m := s.table)
      simpa [hrm2] using this

/-- C3 witness: the statement applied to the fresh state — id 7 is
absent, all four dispatch operations and `close` panic on it; and closing
the present id 0 leaves id 0 absent. -/
theorem C3_witness :
    Deno.mapLookup Deno.fresh0.table 7 = none
    ∧ Deno.Resource.poll_read Deno.fresh0 ⟨7⟩ []
        = .panic ("bad rid " ++ toString 7)
    ∧ Deno.Resource.close Deno.fresh0 ⟨7⟩
        = .panic "assertion failed: r.is_some()"
    ∧ Deno.mapLookup Deno.fresh0Closed0.table 0 = none := by
  have h := C3_theorem.1 Deno.fresh0 7 [] Deno.ShutdownMode.both (by decide)
  have hb := C3_theorem.2 Deno.fresh0 Deno.fresh0Closed0 ⟨0⟩
    (by decide) (by decide)
  exact ⟨by decide, h.1, h.2.2.2.2, hb⟩

/-- C4: the claim states that `child_status` and `readline` return a
recoverable "bad resource" error also when the id is absent from the
table. Counterexample: both are routed through `ResourceTable::run_with`,
which panics `"bad rid"` on an absent id (id 99 in the fresh state)
instead of returning an error. -/
theorem C4_counterexample :
    Deno.child_status Deno.fresh0 99 = .panic "bad rid 99"
    ∧ Deno.readline Deno.fresh0 99 "> " = .panic "bad rid 99" := by
  constructor
  · decide
  · decide

/-- C4 (amended): on an id that is present but names the wrong variant,
`child_status` (anything but `Child`) and `readline` (anything but
`Repl`) return the recoverable typed "bad resource" error; on a
correct-kind id `child_status` returns `Ok` and `readline` returns the
underlying repl result; but on an id absent from the table both panic
inside `run_with` (like the low-level dispatch path), rather than
returning an error. -/
theorem C4_theorem :
    (∀ (s : Deno.GlobalState) (rid : Deno.ResourceId) (c : Deno.ChildModel),
       Deno.mapLookup s.table rid = some (.Child c) →
       Deno.child_status s rid = .ok (.ok ⟨rid⟩))
    ∧ (∀ (s : Deno.GlobalState) (rid : Deno.ResourceId) (repr : Deno.Repr),
       Deno.mapLookup s.table rid = some repr → repr.kind ≠ .child →
       Deno.child_status s rid = .ok (.error (Deno.bad_resource rid)))
    ∧ (∀ (s : Deno.GlobalState) (rid : Deno.ResourceId)
         (res : Except Deno.DenoErr String) (prompt : String),
       Deno.mapLookup s.table rid = some (.Repl res) →
       Deno.readline s rid prompt = .ok res)
    ∧ (∀ (s : Deno.GlobalState) (rid : Deno.ResourceId) (repr : Deno.Repr)
         (prompt : String),
       Deno.mapLookup s.table rid = some repr → repr.kind ≠ .repl →
       Deno.readline s rid prompt = .ok (.error (Deno.bad_resource rid)))
    ∧ (∀ (s : Deno.GlobalState) (rid : Deno.ResourceId) (prompt : String),
       Deno.mapLookup s.table rid = none →
       Deno.child_status s rid = .panic ("bad rid " ++ toString rid)
       ∧ Deno.readline s rid prompt
           = .panic ("bad rid " ++ toString rid)) := by
  refine ⟨?_, ?_, ?_, ?_, ?_⟩
  · intro s rid c h
    simp [Deno.child_status, Deno.run_with, h]
  · intro s rid repr h hk
    cases repr <;>
      simp_all [Deno.child_status, Deno.run_with, Deno.Repr.kind,
        Deno.bad_resource]
  · intro s rid res prompt h
    simp [Deno.readline, Deno.run_with, h]
  · intro s rid repr prompt h hk
    cases repr <;>
      simp_all [Deno.readline, Deno.run_with, Deno.Repr.kind,
        Deno.bad_resource]
  · intro s rid prompt h
    exact ⟨by simp [Deno.child_status, Deno.run_with, h],
           by simp [Deno.readline, Deno.run_with, h]⟩

/-- C4 witness: the amended statement applied to a concrete state with a
`Child` at id 5 and a `Repl` at id 6: correct kinds give `Ok`, swapped
kinds give the "bad resource" error, and the absent id 9 panics. -/
theorem C4_witness :
    Deno.child_status Deno.sampleState 5 = .ok (.ok ⟨5⟩)
    ∧ Deno.child_status Deno.sampleState 6
        = .ok (.error (Deno.bad_resource 6))
    ∧ Deno.readline Deno.sampleState 6 "> " = .ok (.ok "hi")
    ∧ Deno.readline Deno.sampleState 5 "> "
        = .ok (.error (Deno.bad_resource 5))
    ∧ Deno.child_status Deno.sampleState 9
        = .panic ("bad rid " ++ toString 9) := by
  refine ⟨C4_theorem.1 Deno.sampleState 5 Deno.childM0 (by decide),
    C4_theorem.2.1 Deno.sampleState 6 (Deno.Repr.Repl (.ok "hi"))
      (by decide) (by decide),
    C4_theorem.2.2.1 Deno.sampleState 6 (.ok "hi") "> " (by decide),
    C4_theorem.2.2.2.1 Deno.sampleState 5 (Deno.Repr.Child Deno.childM0)
      "> " (by decide) (by decide),
    (C4_theorem.2.2.2.2 Deno.sampleState 9 "" (by decide)).1⟩

/-- C5: capability dispatch is exhaustive over the variant set with
exactly the supported sets stated in the spec: `poll_read` succeeds in
dispatch exactly on FsFile, Stdin, TcpStream, HttpBody, ChildStdout,
ChildStderr; `poll_write` exactly on FsFile, Stdout, Stderr, TcpStream,
ChildStdin; `poll_accept` exactly on TcpListener; `shutdown` exactly on
TcpStream; every unsupported variant panics with the corresponding
"Cannot …" message rather than returning a recoverable error. -/
theorem C5_theorem :
    ∀ repr : Deno.Repr,
      ((Deno.readDispatch repr).isPanic = false ↔
        repr.kind ∈ [Deno.ReprKind.fsFile, .stdin, .tcpStream, .httpBody,
          .childStdout, .childStderr])
      ∧ (Deno.readDispatch repr = .panic "Cannot read" ↔
        repr.kind ∉ [Deno.ReprKind.fsFile, .stdin, .tcpStream, .httpBody,
          .childStdout, .childStderr])
      ∧ ((Deno.writeDispatch repr).isPanic = false ↔
        repr.kind ∈ [Deno.ReprKind.fsFile, .stdout, .stderr, .tcpStream,
          .childStdin])
      ∧ (Deno.writeDispatch repr = .panic "Cannot write" ↔
        repr.kind ∉ [Deno.ReprKind.fsFile, .stdout, .stderr, .tcpStream,
          .childStdin])
      ∧ ((Deno.acceptDispatch repr).isPanic = false ↔
        repr.kind = .tcpListener)
      ∧ (Deno.acceptDispatch repr = .panic "Cannot accept" ↔
        repr.kind ≠ .tcpListener)
      ∧ (∀ how : Deno.ShutdownMode,
          ((Deno.shutdownDispatch how repr).isPanic = false ↔
            repr.kind = .tcpStream)
          ∧ (Deno.shutdownDispatch how repr = .panic "Cannot shutdown" ↔
            repr.kind ≠ .tcpStream)) := by
  intro repr
  cases repr <;>
    refine ⟨?_, ?_, ?_, ?_, ?_, ?_, fun how => ⟨?_, ?_⟩⟩ <;>
    simp [Deno.readDispatch, Deno.writeDispatch, Deno.acceptDispatch,
      Deno.shutdownDispatch, Deno.Outcome.isPanic, Deno.Repr.kind]

/-- C6: in the fresh state, before any insertion or close, the lock-based
`table_entries()` returns exactly the three stdio entries, and the
actor-based manager's table is seeded with the same three entries for
ids 0-2 (its `CollectEntries` snapshot agrees). -/
theorem C6_theorem :
    ∀ pin pout perr : Deno.IoPoll Nat,
      Deno.table_entries (Deno.freshGlobal pin pout perr)
        = [(0, "stdin"), (1, "stdout"), (2, "stderr")]
      ∧ Deno.collectEntries (Deno.freshTable2 pin pout perr)
        = [(0, "stdin"), (1, "stdout"), (2, "stderr")] :=
  fun _ _ _ => ⟨rfl, rfl⟩

/-- C7: for every spawned child, both child-registration paths (the
lock-based `add_child` and the actor worker's `InsertChild` handler)
register one pipe resource per captured standard stream — the bundle's
`stdin_rid`/`stdout_rid`/`stderr_rid` is `Some` exactly when that stream
was captured, and a recorded pipe id maps in the resulting table to the
corresponding `ChildStdin`/`ChildStdout`/`ChildStderr` variant with its
label — and always register the child itself as a `Child` resource at
`child_rid`. In particular, a stdout-only capture from the fresh state
yields `stdin_rid = none`, `stdout_rid = some 3` (labeled "childStdout"),
`stderr_rid = none`, and a valid `child_rid`. (The lock-path statement
assumes the id counter is at least 4 below the u32 bound, so that the
four potential ids do not truncate.) -/
theorem C7_theorem :
    (∀ (s : Deno.GlobalState) (c : Deno.ChildModel) (cr : Deno.ChildResources)
       (s2 : Deno.GlobalState),
       s.nextRid + 4 ≤ Deno.U32LIM →
       Deno.add_child s c = .ok (cr, s2) →
         cr.stdin_rid.isSome = c.stdinPipe.isSome
         ∧ cr.stdout_rid.isSome = c.stdoutPipe.isSome
         ∧ cr.stderr_rid.isSome = c.stderrPipe.isSome
         ∧ Deno.mapLookup s2.table cr.child_rid
             = some (Deno.Repr.Child
                 { c with stdinPipe := none, stdoutPipe := none, stderrPipe := none })
         ∧ (∀ rid, cr.stdin_rid = some rid → ∃ p,
             Deno.mapLookup s2.table rid = some (Deno.Repr.ChildStdin p)
             ∧ Deno.inspect_repr (Deno.Repr.ChildStdin p) = "childStdin")
         ∧ (∀ rid, cr.stdout_rid = some rid → ∃ p,
             Deno.mapLookup s2.table rid = some (Deno.Repr.ChildStdout p)
             ∧ Deno.inspect_repr (Deno.Repr.ChildStdout p) = "childStdout")
         ∧ (∀ rid, cr.stderr_rid = some rid → ∃ p,
             Deno.mapLookup s2.table rid = some (Deno.Repr.ChildStderr p)
             ∧ Deno.inspect_repr (Deno.Repr.ChildStderr p) = "childStderr"))
    ∧ (∀ (t : Deno.ResourceTable2) (c : Deno.ChildModel)
       (cr : Deno.ChildResources) (t2 : Deno.ResourceTable2),
       Deno.insertChildHandler t c = .ok (cr, t2) →
         cr.stdin_rid.isSome = c.stdinPipe.isSome
         ∧ cr.stdout_rid.isSome = c.stdoutPipe.isSome
         ∧ cr.stderr_rid.isSome = c.stderrPipe.isSome
         ∧ Deno.mapLookup t2.table cr.child_rid
             = some (Deno.Repr.Child
                 { c with stdinPipe := none, stdoutPipe := none, stderrPipe := none })
         ∧ (∀ rid, cr.stdin_rid = some rid → ∃ p,
             Deno.mapLookup t2.table rid = some (Deno.Repr.ChildStdin p)
             ∧ Deno.inspect_repr (Deno.Repr.ChildStdin p) = "childStdin")
         ∧ (∀ rid, cr.stdout_rid = some rid → ∃ p,
             Deno.mapLookup t2.table rid = some (Deno.Repr.ChildStdout p)
             ∧ Deno.inspect_repr (Deno.Repr.ChildStdout p) = "childStdout")
         ∧ (∀ rid, cr.stderr_rid = some rid → ∃ p,
             Deno.mapLookup t2.table rid = some (Deno.Repr.ChildStderr p)
             ∧ Deno.inspect_repr (Deno.Repr.ChildStderr p) = "childStderr"))
    ∧ Deno.add_child Deno.fresh0 Deno.childOutOnly
        = .ok ({ child_rid := 4, stdin_rid := none, stdout_rid := some 3,
                 stderr_rid := none },
               ⟨5, Deno.fresh0.table
                   ++ [(3, Deno.Repr.ChildStdout Deno.pollPending),
                       (4, Deno.Repr.Child Deno.childM0)]⟩) := by
  refine ⟨?_, ?_, by decide⟩
  · intro s c cr s2 hv hok
    simp only [Deno.add_child] at hok
    obtain ⟨⟨sr1, st1⟩, e1, hok⟩ := Deno.bind_ok_elim hok
    obtain ⟨⟨sr2, st2⟩, e2, hok⟩ := Deno.bind_ok_elim hok
    obtain ⟨⟨sr3, st3⟩, e3, hok⟩ := Deno.bind_ok_elim hok
    obtain ⟨⟨res4, st4⟩, e4, hok⟩ := Deno.bind_ok_elim hok
    simp only [Deno.Outcome.ok.injEq, Prod.mk.injEq] at hok
    obtain ⟨hcr, hs2⟩ := hok
    subst hs2
    subst hcr
    have hv1 : s.nextRid + 1 ≤ Deno.U32LIM := by omega
    obtain ⟨i1, lo1, hi1, pres1, some1⟩ := Deno.optInsertPipe_spec hv1 e1
    have hv2 : st1.nextRid + 1 ≤ Deno.U32LIM := by omega
    obtain ⟨i2, lo2, hi2, pres2, some2⟩ := Deno.optInsertPipe_spec hv2 e2
    have hv3 : st2.nextRid + 1 ≤ Deno.U32LIM := by omega
    obtain ⟨i3, lo3, hi3, pres3, some3⟩ := Deno.optInsertPipe_spec hv3 e3
    have hv4 : st3.nextRid + 1 ≤ Deno.U32LIM := by omega
    obtain ⟨c1, c2, c3, c4⟩ := Deno.tableInsert_ok_small hv4 e4
    refine ⟨i1, i2, i3, c3, ?_, ?_, ?_⟩
    · intro rid hr
      obtain ⟨hrid, hnext, fd, hfd, hlook⟩ := some1 rid hr
      refine ⟨fd, ?_, rfl⟩
      have h1 : rid < st1.nextRid := by
        rw [hrid, hnext]; exact Nat.lt_succ_self _
      have h2 : rid < st2.nextRid := lt_of_lt_of_le h1 lo2
      have h3 : rid < st3.nextRid := lt_of_lt_of_le h2 lo3
      have p2 := pres2 rid h1
      have p3 := pres3 rid h2
      have p4 : Deno.mapLookup st4.table rid = Deno.mapLookup st3.table rid := by
        refine c4 rid ?_
        rw [c1]
        exact Nat.ne_of_lt h3
      rw [p4, p3, p2]
      exact hlook
    · intro rid hr
      obtain ⟨hrid, hnext, fd, hfd, hlook⟩ := some2 rid hr
      refine ⟨fd, ?_, rfl⟩
      have h2 : rid < st2.nextRid := by
        rw [hrid, hnext]; exact Nat.lt_succ_self _
      have h3 : rid < st3.nextRid := lt_of_lt_of_le h2 lo3
      have p3 := pres3 rid h2
      have p4 : Deno.mapLookup st4.table rid = Deno.mapLookup st3.table rid := by
        refine c4 rid ?_
        rw [c1]
        exact Nat.ne_of_lt h3
      rw [p4, p3]
      exact hlook
    · intro rid hr
      obtain ⟨hrid, hnext, fd, hfd, hlook⟩ := some3 rid hr
      refine ⟨fd, ?_, rfl⟩
      have h3 : rid < st3.nextRid := by
        rw [hrid, hnext]; exact Nat.lt_succ_self _
      have p4 : Deno.mapLookup st4.table rid = Deno.mapLookup st3.table rid := by
        refine c4 rid ?_
        rw [c1]
        exact Nat.ne_of_lt h3
      rw [p4]
      exact hlook
  · intro t c cr t2 hok
    simp only [Deno.insertChildHandler] at hok
    obtain ⟨⟨sr1, tb1⟩, e1, hok⟩ := Deno.bind_ok_elim hok
    obtain ⟨⟨sr2, tb2⟩, e2, hok⟩ := Deno.bind_ok_elim hok
    obtain ⟨⟨sr3, tb3⟩, e3, hok⟩ := Deno.bind_ok_elim hok
    obtain ⟨⟨res4, tb4⟩, e4, hok⟩ := Deno.bind_ok_elim hok
    simp only [Deno.Outcome.ok.injEq, Prod.mk.injEq] at hok
    obtain ⟨hcr, ht2⟩ := hok
    subst ht2
    subst hcr
    obtain ⟨i1, lo1, hi1, pres1, some1⟩ := Deno.optInsertPipe2_spec e1
    obtain ⟨i2, lo2, hi2, pres2, some2⟩ := Deno.optInsertPipe2_spec e2
    obtain ⟨i3, lo3, hi3, pres3, some3⟩ := Deno.optInsertPipe2_spec e3
    obtain ⟨c1, c2, c3, c4⟩ := Deno.table2Insert_ok e4
    refine ⟨i1, i2, i3, c3, ?_, ?_, ?_⟩
    · intro rid hr
      obtain ⟨hrid, hnext, fd, hfd, hlook⟩ := some1 rid hr
      refine ⟨fd, ?_, rfl⟩
      have h1 : rid ≤ tb1.rid_gen := by
        rw [hrid, hnext]
      have h2 : rid ≤ tb2.rid_gen := le_trans h1 lo2
      have h3 : rid ≤ tb3.rid_gen := le_trans h2 lo3
      have p2 := pres2 rid h1
      have p3 := pres3 rid h2
      have p4 : Deno.mapLookup tb4.table rid = Deno.mapLookup tb3.table rid := by
        refine c4 rid ?_
        rw [c1]
        exact Nat.ne_of_lt (Nat.lt_succ_of_le h3)
      rw [p4, p3, p2]
      exact hlook
    · intro rid hr
      obtain ⟨hrid, hnext, fd, hfd, hlook⟩ := some2 rid hr
      refine ⟨fd, ?_, rfl⟩
      have h2 : rid ≤ tb2.rid_gen := by
        rw [hrid, hnext]
      have h3 : rid ≤ tb3.rid_gen := le_trans h2 lo3
      have p3 := pres3 rid h2
      have p4 : Deno.mapLookup tb4.table rid = Deno.mapLookup tb3.table rid := by
        refine c4 rid ?_
        rw [c1]
        exact Nat.ne_of_lt (Nat.lt_succ_of_le h3)
      rw [p4, p3]
      exact hlook
    · intro rid hr
      obtain ⟨hrid, hnext, fd, hfd, hlook⟩ := some3 rid hr
      refine ⟨fd, ?_, rfl⟩
      have h3 : rid ≤ tb3.rid_gen := by
        rw [hrid, hnext]
      have p4 : Deno.mapLookup tb4.table rid = Deno.mapLookup tb3.table rid := by
        refine c4 rid ?_
        rw [c1]
        exact Nat.ne_of_lt (Nat.lt_succ_of_le h3)
      rw [p4]
      exact hlook

/-- C7 witness: both registration paths applied to a concrete stdout-only
child from the fresh states: the bundle is `none / some _ / none` with a
valid child id, and the recorded pipe id maps to a "childStdout"-labeled
resource. -/
theorem C7_witness :
    (({ child_rid := 4, stdin_rid := none, stdout_rid := some 3,
        stderr_rid := none } : Deno.ChildResources).stdin_rid.isSome
      = Deno.childOutOnly.stdinPipe.isSome)
    ∧ (∃ p, Deno.mapLookup
        (Deno.fresh0.table ++ [(3, Deno.Repr.ChildStdout Deno.pollPending),
          (4, Deno.Repr.Child Deno.childM0)]) 3
          = some (Deno.Repr.ChildStdout p)
        ∧ Deno.inspect_repr (Deno.Repr.ChildStdout p) = "childStdout")
    ∧ (∃ p, Deno.mapLookup
        (Deno.freshT2c.table ++ [(4, Deno.Repr.ChildStdout Deno.pollPending),
          (5, Deno.Repr.Child Deno.childM0)]) 4
          = some (Deno.Repr.ChildStdout p)
        ∧ Deno.inspect_repr (Deno.Repr.ChildStdout p) = "childStdout") := by
  have h1 := C7_theorem.1 Deno.fresh0 Deno.childOutOnly
    { child_rid := 4, stdin_rid := none, stdout_rid := some 3,
      stderr_rid := none }
    ⟨5, Deno.fresh0.table ++ [(3, Deno.Repr.ChildStdout Deno.pollPending),
        (4, Deno.Repr.Child Deno.childM0)]⟩
    (by decide) (by decide)
  have h2 := C7_theorem.2.1 Deno.freshT2c Deno.childOutOnly
    { child_rid := 5, stdin_rid := none, stdout_rid := some 4,
      stderr_rid := none }
    ⟨5, Deno.freshT2c.table ++ [(4, Deno.Repr.ChildStdout Deno.pollPending),
        (5, Deno.Repr.Child Deno.childM0)]⟩
    (by decide)
  exact ⟨h1.1, h1.2.2.2.2.2.1 3 rfl, h2.2.2.2.2.2.1 4 rfl⟩

/-- C8: the claim states ids 0, 1, 2 can never be removed from the table.
Counterexample: `Resource::close` on id 0 in the fresh state succeeds
(the assertion passes precisely because the entry exists) and removes
stdin; afterwards id 0 is absent and `table_entries` no longer reports
it. -/
theorem C8_counterexample :
    Deno.Resource.close Deno.fresh0 ⟨0⟩ = .ok Deno.fresh0Closed0
    ∧ Deno.mapLookup Deno.fresh0Closed0.table 0 = none
    ∧ Deno.table_entries Deno.fresh0Closed0
        = [(1, "stdout"), (2, "stderr")] :=
  ⟨by decide, by decide, by decide⟩

/-- C8 (amended): ids 0, 1, 2 are seeded to the stdio variants in both
stores at startup and neither allocator ever issues them again (from any
in-range counter state ≥ 3 the lock-path id is ≥ 3 and the counter stays
≥ 3; a successful actor-path insert from `rid_gen ≥ 3` issues ≥ 4 and
keeps `rid_gen ≥ 3`); but the stdio ids are not protected from removal:
`close` on any present id — including 0, 1, 2 — succeeds and removes its
entry. -/
theorem C8_theorem :
    (∀ pin pout perr : Deno.IoPoll Nat,
      Deno.mapLookup (Deno.freshGlobal pin pout perr).table 0
          = some (Deno.Repr.Stdin pin)
      ∧ Deno.mapLookup (Deno.freshGlobal pin pout perr).table 1
          = some (Deno.Repr.Stdout pout)
      ∧ Deno.mapLookup (Deno.freshGlobal pin pout perr).table 2
          = some (Deno.Repr.Stderr perr)
      ∧ Deno.mapLookup (Deno.freshTable2 pin pout perr).table 0
          = some (Deno.Repr.Stdin pin)
      ∧ Deno.mapLookup (Deno.freshTable2 pin pout perr).table 1
          = some (Deno.Repr.Stdout pout)
      ∧ Deno.mapLookup (Deno.freshTable2 pin pout perr).table 2
          = some (Deno.Repr.Stderr perr))
    ∧ (∀ s : Deno.GlobalState, 3 ≤ s.nextRid → s.nextRid < Deno.U32LIM →
        3 ≤ (Deno.new_rid s).1 ∧ 3 ≤ (Deno.new_rid s).2.nextRid)
    ∧ (∀ (t : Deno.ResourceTable2) (r : Deno.Repr) (res : Deno.Resource)
         (t2 : Deno.ResourceTable2), 3 ≤ t.rid_gen →
        Deno.ResourceTable2.insert t r = .ok (res, t2) →
        4 ≤ res.rid ∧ 3 ≤ t2.rid_gen)
    ∧ (∀ (s : Deno.GlobalState) (rid : Deno.ResourceId),
        Deno.mapLookup s.table rid ≠ none →
        (s.table.map Prod.fst).Nodup →
        ∃ s2, Deno.Resource.close s ⟨rid⟩ = .ok s2
          ∧ Deno.mapLookup s2.table rid = none) := by
  refine ⟨fun pin pout perr => ⟨rfl, rfl, rfl, rfl, rfl, rfl⟩, ?_, ?_, ?_⟩
  · intro s h3 hlt
    have hvs : s.nextRid + 1 < Deno.USIZELIM := by
      have : Deno.U32LIM < Deno.USIZELIM := by
        rw [Deno.U32LIM_eq, Deno.USIZELIM_eq]; norm_num
      omega
    constructor
    · show 3 ≤ s.nextRid % Deno.U32LIM
      rw [Nat.mod_eq_of_lt hlt]
      exact h3
    · show 3 ≤ (s.nextRid + 1) % Deno.USIZELIM
      rw [Nat.mod_eq_of_lt hvs]
      omega
  · intro t r res t2 h3 hok
    obtain ⟨hrid, hgen, -, -⟩ := Deno.table2Insert_ok hok
    rw [hrid, hgen]
    exact ⟨Nat.add_le_add_right h3 1, Nat.le_succ_of_le h3⟩
  · intro s rid hne hnodup
    rcases hrm : Deno.mapRemove s.table rid with ⟨old, m2⟩
    have hfst := Deno.mapRemove_fst s.table rid
    rw [hrm] at hfst
    cases old with
    | none => exact absurd hfst.symm hne
    | some w =>
      refine ⟨{ s with table := m2 }, ?_, ?_⟩
      · simp [Deno.Resource.close, hrm]
      · have := Deno.mapRemove_lookup_self rid hnodup (m := s.table)
        simpa [hrm] using this

/-- C8 witness: the amended statement applied to concrete inputs: the
fresh tables hold the stdio entries; `new_rid` from the fresh counter
issues 3; a fresh actor insert issues 4; and closing the present id 0
succeeds and leaves it absent. -/
theorem C8_witness :
    Deno.mapLookup Deno.fresh0.table 0 = some (Deno.Repr.Stdin Deno.pollPending)
    ∧ (3 ≤ (Deno.new_rid Deno.fresh0).1
        ∧ 3 ≤ (Deno.new_rid Deno.fresh0).2.nextRid)
    ∧ (4 ≤ (⟨4⟩ : Deno.Resource).rid ∧ 3 ≤ (4 : Nat))
    ∧ (∃ s2, Deno.Resource.close Deno.fresh0 ⟨0⟩ = .ok s2
        ∧ Deno.mapLookup s2.table 0 = none) := by
  refine ⟨(C8_theorem.1 Deno.pollPending Deno.pollPending Deno.pollPending).1,
    C8_theorem.2.1 Deno.fresh0 (by decide) (by decide),
    ?_, C8_theorem.2.2.2 Deno.fresh0 0 (by decide) (by decide)⟩
  exact C8_theorem.2.2.1 Deno.freshT2c Deno.reprX ⟨4⟩
    ⟨4, Deno.freshT2c.table ++ [(4, Deno.reprX)]⟩ (by decide) (by decide)

/-- C9: the claim states that after `close()` on the global manager,
every subsequent submission panics because the worker is no longer alive.
Counterexample trace: from the fresh manager the worker blocks in
`rx.recv()`; `close()` only clears the running flag, which the worker
retests only at the top of its loop — so a submission made right after
`close()` is accepted (no panic) and is served normally (the
`CollectEntries` reply is produced); only after serving it does the
worker observe the flag and exit. -/
theorem C9_counterexample :
    Deno.workerStep Deno.managerInit0 = .ok Deno.mgrRecv
    ∧ Deno.submit (Deno.ResourceManager.close Deno.mgrRecv) .CollectEntries
        = .ok Deno.mgrClosedPending
    ∧ (Deno.submit (Deno.ResourceManager.close Deno.mgrRecv)
        .CollectEntries).isPanic = false
    ∧ Deno.workerStep Deno.mgrClosedPending = .ok Deno.mgrServed
    ∧ Deno.mgrServed.replies
        = [Deno.Reply.CollectEntries
            [(0, "stdin"), (1, "stdout"), (2, "stderr")]]
    ∧ Deno.workerStep Deno.mgrServed = .ok Deno.mgrDead :=
  ⟨by decide, by decide, by decide, by decide, by decide, by decide⟩

/-- C9 (amended): a submission panics ("resource manager thread is dead")
exactly once the worker has returned and dropped its receiver; while the
worker is still blocked in `rx.recv()` a submission — even after
`close()` — is accepted without panic; and after `close()` the worker
exits as soon as it next reaches the top of its loop (so it serves at
most one more request). -/
theorem C9_theorem :
    (∀ (s : Deno.ManagerState) (w : Deno.WorkItem),
        s.phase = .exited →
        Deno.submit s w = .panic "resource manager thread is dead")
    ∧ (∀ (s : Deno.ManagerState) (w : Deno.WorkItem),
        s.phase = .receiving → (Deno.submit s w).isPanic = false)
    ∧ (∀ s : Deno.ManagerState, s.running = false →
        s.phase = .checkFlag →
        Deno.workerStep s = .ok { s with phase := .exited }) := by
  refine ⟨?_, ?_, ?_⟩
  · intro s w h
    simp [Deno.submit, h]
  · intro s w h
    simp [Deno.submit, h, Deno.Outcome.isPanic]
  · intro s hrun hph
    obtain ⟨run, q, ph, tb, rp⟩ := s
    simp only at hrun hph
    subst hrun
    subst hph
    rfl

/-- C9 witness: the amended statement applied to the concrete trace
states: submission to the dead manager panics, submission to the
still-receiving closed manager does not, and the worker at the loop head
with the flag down exits. -/
theorem C9_witness :
    Deno.submit Deno.mgrDead .CollectEntries
        = .panic "resource manager thread is dead"
    ∧ (Deno.submit (Deno.ResourceManager.close Deno.mgrRecv)
        (.Insert Deno.reprX)).isPanic = false
    ∧ Deno.workerStep Deno.mgrServed
        = .ok { Deno.mgrServed with phase := .exited } := by
  refine ⟨C9_theorem.1 Deno.mgrDead .CollectEntries rfl, ?_, ?_⟩
  · exact C9_theorem.2.1 (Deno.ResourceManager.close Deno.mgrRecv)
      (.Insert Deno.reprX) rfl
  · exact C9_theorem.2.2 Deno.mgrServed rfl rfl

/-- C10: for every `Resource` handle and buffer, the synchronous
`std::io` entry points — `Read::read`, `Write::write`, `Write::flush` —
and the no-argument `AsyncWrite::shutdown` are all `unimplemented!()` and
always panic; only the `poll_*` entry points are usable. -/
theorem C10_theorem :
    ∀ (r : Deno.Resource) (buf : List Nat),
      (Deno.Resource.read r buf).isPanic = true
      ∧ (Deno.Resource.write r buf).isPanic = true
      ∧ (Deno.Resource.flush r).isPanic = true
      ∧ (Deno.Resource.async_shutdown r).isPanic = true :=
  fun _ _ => ⟨rfl, rfl, rfl, rfl⟩
